import Mathlib

/-!
# Verification of the keyfile policy backend

A shallow embedding of the rule-file parser (`polkitbackendpolicyfile.c`)
and the keyfile authority (`polkitbackendkeyfileauthority.c`), together
with theorems settling the specification claims about them.

GLib strings are modelled as Lean `String`; all character-level helpers
are written by structural recursion over `String.data` so that every
definition evaluates inside the kernel.  A loaded `GKeyFile` is modelled
as an ordered association structure (`KeyFile`); `g_key_file_load_from_file`
failure is modelled by passing `none` to `policy_file_new_from_path`.
-/

/-! ## GLib string primitives -/

/-- `g_ascii_isspace`: ASCII whitespace as used by `g_strstrip`. -/
def g_ascii_isspace (c : Char) : Bool :=
  c == ' ' || c == '\t' || c == '\n' || c == '\x0b' || c == '\x0c' || c == '\r'

/-- `g_strstrip`: strip ASCII whitespace from both ends, in place in C. -/
def g_strstrip (s : String) : String :=
  ⟨((s.data.dropWhile g_ascii_isspace).reverse.dropWhile g_ascii_isspace).reverse⟩

/-- `g_ascii_tolower`: lower-case a single ASCII letter, other bytes unchanged. -/
def g_ascii_tolower (c : Char) : Char :=
  if 65 ≤ c.toNat && c.toNat ≤ 90 then Char.ofNat (c.toNat + 32) else c

/-- `g_ascii_strdown`: ASCII-only lower-casing of a whole string. -/
def g_ascii_strdown (s : String) : String :=
  ⟨s.data.map g_ascii_tolower⟩

/-- Character-list test used to define the `g_str_has_*` helpers. -/
def isPrefList : List Char → List Char → Bool
  | [], _ => true
  | _ :: _, [] => false
  | a :: as, b :: bs => a == b && isPrefList as bs

/-- `g_str_has_prefix (s, p)` from GLib: does `s` start with `p`? -/
def strStartsWith (s p : String) : Bool :=
  isPrefList p.data s.data

/-- `g_str_has_suffix (s, suffix)` from GLib: does `s` end with `suffix`? -/
def g_str_has_suffix (s suffix : String) : Bool :=
  isPrefList suffix.data.reverse s.data.reverse

/-- `strstr`-style containment: does `hay` contain `sub` as a substring? -/
def listContainsSub (sub : List Char) : List Char → Bool
  | [] => isPrefList sub []
  | c :: t => isPrefList sub (c :: t) || listContainsSub sub t

/-- String-level substring containment. -/
def strContainsSub (hay sub : String) : Bool :=
  listContainsSub sub.data hay.data

/-- Byte-wise `strcmp`-style strict comparison (UTF-8 byte order equals
code-point order, so comparing `Char` code points is faithful). -/
def charListLt : List Char → List Char → Bool
  | [], [] => false
  | [], _ :: _ => true
  | _ :: _, [] => false
  | a :: as, b :: bs =>
    if a.toNat < b.toNat then true
    else if b.toNat < a.toNat then false
    else charListLt as bs

/-- `strcmp (a, b) < 0`. -/
def strLt (a b : String) : Bool :=
  charListLt a.data b.data

/-- `strcmp (a, b) <= 0`. -/
def strLe (a b : String) : Bool :=
  !(strLt b a)

/-! ## GKeyFile model -/

/-- A loaded `GKeyFile`: ordered groups, each an ordered list of
key/value pairs holding the raw stored value text. -/
structure KeyFile where
  groups : List (String × List (String × String))
deriving DecidableEq, Repr

/-- `g_key_file_has_group`. -/
def KeyFile.hasGroup (kf : KeyFile) (group_name : String) : Bool :=
  kf.groups.any (fun g => g.1 == group_name)

/-- Raw stored value for a group/key pair, `none` when the group or the
key is absent. -/
def KeyFile.getRaw (kf : KeyFile) (group_name key : String) : Option String :=
  match kf.groups.find? (fun g => g.1 == group_name) with
  | none => none
  | some g => (g.2.find? (fun kv => kv.1 == key)).map (fun kv => kv.2)

/-- `g_key_file_has_key`. -/
def KeyFile.hasKey (kf : KeyFile) (group_name key : String) : Bool :=
  (kf.getRaw group_name key).isSome

/-- Split a raw value at the `;` list separator (GKeyFile default). -/
def splitOnSemi : List Char → List (List Char)
  | [] => [[]]
  | c :: rest =>
    let r := splitOnSemi rest
    if c == ';' then [] :: r
    else
      match r with
      | [] => [[c]]
      | p :: ps => (c :: p) :: ps

/-- `g_key_file_get_string_list` value parsing: split at `;`, a single
trailing separator contributes no element (so the empty value is the
empty list). -/
def g_key_file_parse_string_list (value : String) : List String :=
  let pieces := splitOnSemi value.data
  let pieces :=
    match pieces.reverse with
    | [] :: rest => rest.reverse
    | _ => pieces
  pieces.map (fun l => ⟨l⟩)

/-- `g_key_file_get_string_list`, `none` exactly when the group or the
key is missing (the error branch in the C callers). -/
def g_key_file_get_string_list (kf : KeyFile) (group_name key : String) :
    Option (List String) :=
  (kf.getRaw group_name key).map g_key_file_parse_string_list

/-- `g_key_file_parse_value_as_boolean`: `true`/`1` and `false`/`0`,
anything else is an error. -/
def g_key_file_parse_boolean (value : String) : Option Bool :=
  if value == "true" || value == "1" then some true
  else if value == "false" || value == "0" then some false
  else none

/-! ## Policy data model (`polkitbackendpolicyfile.h`) -/

/-- The `PolkitResponse` verdict enumeration; `unhandled` is the
zero/unset value a `g_new0`-allocated `Policy` starts with (modelled
from the spec: a rule with no `Result` set is inert). -/
inductive PolkitResponse
  | unhandled
  | no
  | yes
  | auth_self
  | auth_self_keep
  | auth_admin
  | auth_admin_keep
deriving DecidableEq, Repr

/-- The `PF_CONSTRAINT_*` bitmask of `Policy.constraints`, modelled from
the spec as the set of optional fields present in the section (the
header defining the bit values is not part of the sources). -/
structure ConstraintMask where
  actions : Bool := false
  action_contains : Bool := false
  unix_groups : Bool := false
  net_groups : Bool := false
  result : Bool := false
  result_inverse : Bool := false
  unix_names : Bool := false
  subject_active : Bool := false
  subject_local : Bool := false
deriving DecidableEq, Repr

/-- The `Policy` struct: one compiled `[Section]` of a rule file.  The
`n_*` counters of the C struct always equal the lengths of the
corresponding arrays and are omitted (Lean lists carry their length).
The `next` pointer is represented by membership in a `List Policy`. -/
structure Policy where
  id : String
  constraints : ConstraintMask
  actions : List String
  action_contains : List String
  unix_groups : List String
  net_groups : List String
  unix_names : List String
  require_active : Bool
  require_local : Bool
  response : PolkitResponse
  response_inverse : PolkitResponse
deriving DecidableEq, Repr

/-- `g_new0 (Policy, 1)` followed by `policy->id = g_strdup (section_id)`. -/
def zeroPolicy (section_id : String) : Policy :=
  { id := section_id
    constraints := {}
    actions := []
    action_contains := []
    unix_groups := []
    net_groups := []
    unix_names := []
    require_active := false
    require_local := false
    response := PolkitResponse.unhandled
    response_inverse := PolkitResponse.unhandled }

/-- The `PolicyFile` struct: the two rule lists of one compiled file.
The `next` pointer is represented by membership in a `List PolicyFile`
(the chain). -/
structure PolicyFile where
  normal : List Policy
  admin : List Policy
deriving DecidableEq, Repr

/-! ## Rule parser (`polkitbackendpolicyfile.c`) -/

/-- `policy_string_to_result`. -/
def policy_string_to_result (inp : String) : PolkitResponse :=
  let comparison := g_ascii_strdown inp
  if comparison == "no" then PolkitResponse.no
  else if comparison == "yes" then PolkitResponse.yes
  else if comparison == "auth_self" then PolkitResponse.auth_self
  else if comparison == "auth_self_keep" then PolkitResponse.auth_self_keep
  else if comparison == "auth_admin" then PolkitResponse.auth_admin
  else if comparison == "auth_admin_keep" then PolkitResponse.auth_admin_keep
  else PolkitResponse.unhandled

/-- The `Actions` block of `policy_load`. -/
def policy_load_actions (file : KeyFile) (section_id : String) (policy : Policy) :
    Option Policy :=
  if file.hasKey section_id "Actions" then
    match g_key_file_get_string_list file section_id "Actions" with
    | none => none
    | some xs =>
      some { policy with
              actions := xs
              constraints := { policy.constraints with actions := true } }
  else some policy

/-- The `ActionContains` block of `policy_load`. -/
def policy_load_action_contains (file : KeyFile) (section_id : String)
    (policy : Policy) : Option Policy :=
  if file.hasKey section_id "ActionContains" then
    match g_key_file_get_string_list file section_id "ActionContains" with
    | none => none
    | some xs =>
      some { policy with
              action_contains := xs
              constraints := { policy.constraints with action_contains := true } }
  else some policy

/-- The `InUnixGroups` block of `policy_load`. -/
def policy_load_unix_groups (file : KeyFile) (section_id : String)
    (policy : Policy) : Option Policy :=
  if file.hasKey section_id "InUnixGroups" then
    match g_key_file_get_string_list file section_id "InUnixGroups" with
    | none => none
    | some xs =>
      some { policy with
              unix_groups := xs
              constraints := { policy.constraints with unix_groups := true } }
  else some policy

/-- The `InNetGroups` block of `policy_load`. -/
def policy_load_net_groups (file : KeyFile) (section_id : String)
    (policy : Policy) : Option Policy :=
  if file.hasKey section_id "InNetGroups" then
    match g_key_file_get_string_list file section_id "InNetGroups" with
    | none => none
    | some xs =>
      some { policy with
              net_groups := xs
              constraints := { policy.constraints with net_groups := true } }
  else some policy

/-- The `Result` block of `policy_load`: an unrecognised keyword makes
the section (and hence the file) fail. -/
def policy_load_result (file : KeyFile) (section_id : String) (policy : Policy) :
    Option Policy :=
  if file.hasKey section_id "Result" then
    match file.getRaw section_id "Result" with
    | none => none
    | some result =>
      let policy := { policy with response := policy_string_to_result (g_strstrip result) }
      if policy.response == PolkitResponse.unhandled then none
      else some { policy with constraints := { policy.constraints with result := true } }
  else some policy

/-- The `ResultInverse` block of `policy_load`.  The source checks
`policy->response` — not `policy->response_inverse` — against
`PK_RESPONSE_UNHANDLED` after the assignment; the embedding preserves
that check verbatim. -/
def policy_load_result_inverse (file : KeyFile) (section_id : String)
    (policy : Policy) : Option Policy :=
  if file.hasKey section_id "ResultInverse" then
    match file.getRaw section_id "ResultInverse" with
    | none => none
    | some result =>
      let policy :=
        { policy with response_inverse := policy_string_to_result (g_strstrip result) }
      if policy.response == PolkitResponse.unhandled then none
      else
        some { policy with
                constraints := { policy.constraints with result_inverse := true } }
  else some policy

/-- The `InUserNames` block of `policy_load`. -/
def policy_load_unix_names (file : KeyFile) (section_id : String)
    (policy : Policy) : Option Policy :=
  if file.hasKey section_id "InUserNames" then
    match g_key_file_get_string_list file section_id "InUserNames" with
    | none => none
    | some xs =>
      some { policy with
              unix_names := xs
              constraints := { policy.constraints with unix_names := true } }
  else some policy

/-- The `SubjectActive` block of `policy_load`. -/
def policy_load_subject_active (file : KeyFile) (section_id : String)
    (policy : Policy) : Option Policy :=
  if file.hasKey section_id "SubjectActive" then
    match file.getRaw section_id "SubjectActive" with
    | none => none
    | some v =>
      match g_key_file_parse_boolean v with
      | none => none
      | some b =>
        some { policy with
                require_active := b
                constraints := { policy.constraints with subject_active := true } }
  else some policy

/-- The `SubjectLocal` block of `policy_load`. -/
def policy_load_subject_local (file : KeyFile) (section_id : String)
    (policy : Policy) : Option Policy :=
  if file.hasKey section_id "SubjectLocal" then
    match file.getRaw section_id "SubjectLocal" with
    | none => none
    | some v =>
      match g_key_file_parse_boolean v with
      | none => none
      | some b =>
        some { policy with
                require_local := b
                constraints := { policy.constraints with subject_local := true } }
  else some policy

/-- `policy_load`: load one `[Section]`; missing section is a failure,
then each key block runs in the source order. -/
def policy_load (file : KeyFile) (section_id : String) : Option Policy :=
  if file.hasGroup section_id = false then none
  else
    (some (zeroPolicy section_id))
      >>= policy_load_actions file section_id
      >>= policy_load_action_contains file section_id
      >>= policy_load_unix_groups file section_id
      >>= policy_load_net_groups file section_id
      >>= policy_load_result file section_id
      >>= policy_load_result_inverse file section_id
      >>= policy_load_unix_names file section_id
      >>= policy_load_subject_active file section_id
      >>= policy_load_subject_local file section_id

/-- The loop of `policy_file_load_rules`: load each named section (the
name stripped first), linking successes in declaration order; the first
failure aborts the whole list. -/
def load_rules_list (keyfile : KeyFile) : List String → Option (List Policy)
  | [] => some []
  | s :: rest =>
    match policy_load keyfile (g_strstrip s) with
    | none => none
    | some p =>
      match load_rules_list keyfile rest with
      | none => none
      | some ps => some (p :: ps)

/-- `policy_file_load_rules`: read the section list named `sec` from
`[Policy]` (error when the group or the key is missing), then load every
named section. -/
def policy_file_load_rules (keyfile : KeyFile) (sec : String) :
    Option (List Policy) :=
  match g_key_file_get_string_list keyfile "Policy" sec with
  | none => none
  | some sections => load_rules_list keyfile sections

/-- `policy_file_new_from_path`: `none` for a keyfile that failed to
load (`loaded = none`), otherwise load the `Rules` list then the
`AdminRules` list, failing the whole file if either fails. -/
def policy_file_new_from_path (loaded : Option KeyFile) : Option PolicyFile :=
  match loaded with
  | none => none
  | some keyf =>
    match policy_file_load_rules keyf "Rules" with
    | none => none
    | some normal =>
      match policy_file_load_rules keyf "AdminRules" with
      | none => none
      | some admin => some { normal := normal, admin := admin }

/-! ## Keyfile authority (`polkitbackendkeyfileauthority.c`)

Directory listing is modelled by a function `fs : String → Option (List String)`
(`g_dir_open` failure is `none`, otherwise the names in `g_dir_read_name`
order), and file loading by `loadfile : String → Option KeyFile`
(`g_key_file_load_from_file` failure is `none`). -/

/-- The characters after the last `/` (what `strrchr (s, '/') + 1` yields;
the source asserts a `/` is present). -/
def afterLastSlash (s : String) : String :=
  ⟨(s.data.reverse.takeWhile (fun c => c != '/')).reverse⟩

/-- `rules_file_name_cmp (a, b) <= 0`: order by base filename first and,
for equal base filenames, by the full path (`g_strcmp0`); the source
asserts full equality never happens. -/
def rules_file_name_le (a b : String) : Bool :=
  if afterLastSlash a == afterLastSlash b then strLe a b
  else strLt (afterLastSlash a) (afterLastSlash b)

/-- The discovery loop of `load_scripts`: for each directory in order,
skip it when it cannot be opened, otherwise prepend `dir/name` for every
entry ending in `.keyrules` (GLib `g_list_prepend` reverses). -/
def collect_rule_files (rules_dirs : List String)
    (fs : String → Option (List String)) : List String :=
  rules_dirs.foldl
    (fun files dir_name =>
      match fs dir_name with
      | none => files
      | some names =>
        names.foldl
          (fun acc name =>
            if g_str_has_suffix name ".keyrules" then (dir_name ++ "/" ++ name) :: acc
            else acc)
          files)
    []

/-- Stable insertion used to model `g_list_sort`. -/
def insert_rules_file (x : String) : List String → List String
  | [] => [x]
  | y :: ys => if rules_file_name_le x y then x :: y :: ys else y :: insert_rules_file x ys

/-- `g_list_sort (files, rules_file_name_cmp)`.  GLib uses a stable merge
sort; a stable insertion sort produces the identical list for the same
total comparison, which is how the sort is modelled here. -/
def sort_rules_files : List String → List String
  | [] => []
  | x :: xs => insert_rules_file x (sort_rules_files xs)

/-- The ordered file set the parse loop of `load_scripts` walks. -/
def sorted_rule_files (rules_dirs : List String)
    (fs : String → Option (List String)) : List String :=
  sort_rules_files (collect_rule_files rules_dirs fs)

/-- The parse loop of `load_scripts`: files that fail to compile are
logged and skipped (`continue`); successes are linked in order. -/
def load_loop (loadfile : String → Option KeyFile) : List String → List PolicyFile
  | [] => []
  | f :: rest =>
    match policy_file_new_from_path (loadfile f) with
    | none => load_loop loadfile rest
    | some file => file :: load_loop loadfile rest

/-- `load_scripts`: discover, sort, and parse, yielding the new chain
stored in `authority->priv->policy`. -/
def load_scripts (rules_dirs : List String) (fs : String → Option (List String))
    (loadfile : String → Option KeyFile) : List PolicyFile :=
  load_loop loadfile (sorted_rule_files rules_dirs fs)

/-- The mutable state of `PolkitBackendKeyfileAuthorityPrivate` the
claims are about. -/
structure AuthorityState where
  rules_dirs : List String
  policy : List PolicyFile
deriving DecidableEq, Repr

/-- `reload_scripts`: clear the old chain, rebuild via `load_scripts`,
then emit the `changed` signal (the `Bool` component). -/
def reload_scripts (st : AuthorityState) (fs : String → Option (List String))
    (loadfile : String → Option KeyFile) : AuthorityState × Bool :=
  ({ st with policy := load_scripts st.rules_dirs fs loadfile }, true)

/-- The GIO `GFileMonitorEvent` enumeration. -/
inductive GFileMonitorEvent
  | changed
  | changes_done_hint
  | deleted
  | created
  | attribute_changed
  | pre_unmount
  | unmounted
  | moved
deriving DecidableEq, Repr

/-- `on_dir_monitor_changed`: the event's file is modelled by its
basename (`g_file_get_basename`), `none` when `file == NULL`.  The
returned `Bool` records whether a reload (and the `changed`
notification it ends with) was triggered. -/
def on_dir_monitor_changed (st : AuthorityState)
    (fs : String → Option (List String)) (loadfile : String → Option KeyFile)
    (file : Option String) (event_type : GFileMonitorEvent) :
    AuthorityState × Bool :=
  match file with
  | none => (st, false)
  | some name =>
    if !strStartsWith name "." && !strStartsWith name "#"
        && g_str_has_suffix name ".keyrules"
        && (event_type == GFileMonitorEvent.created
            || event_type == GFileMonitorEvent.deleted
            || event_type == GFileMonitorEvent.changes_done_hint)
    then reload_scripts st fs loadfile
    else (st, false)

/-! ### Intermediate chain states during a reload

`reload_scripts` first frees the old chain and nulls
`authority->priv->policy`; `load_scripts` then stores the first
successfully compiled file into that live pointer and appends every
further success through `last->next`, mutating the chain the pointer
already references.  `reload_scripts_states` lists the successive values
of the chain reachable from `authority->priv->policy`: the old chain,
the empty chain right after the clear, and the growing chain after each
iteration of the parse loop. -/

/-- Chain contents reachable from the live pointer after each iteration
of the parse loop of `load_scripts`, given each file's parse outcome. -/
def chain_states : List (Option PolicyFile) → List PolicyFile → List (List PolicyFile)
  | [], _ => []
  | none :: rest, cur => cur :: chain_states rest cur
  | some file :: rest, cur => (cur ++ [file]) :: chain_states rest (cur ++ [file])

/-- All successive values of the current-chain pointer during
`reload_scripts`. -/
def reload_scripts_states (old : List PolicyFile) (files : List String)
    (loadfile : String → Option KeyFile) : List (List PolicyFile) :=
  old :: [] :: chain_states (files.map (fun f => policy_file_new_from_path (loadfile f))) []

/-! ## Evaluation entry points -/

/-- `PolkitImplicitAuthorization` from the polkit core library. -/
inductive PolkitImplicitAuthorization
  | unknown
  | not_authorized
  | authentication_required
  | administrator_authentication_required
  | authentication_required_retained
  | administrator_authentication_required_retained
  | authorized
deriving DecidableEq, Repr

/-- `PolkitIdentity`: a concrete uid (`polkit_unix_user_new`) or, for
the spec-modelled resolver, a user/group picked out by name. -/
inductive PolkitIdentity
  | unix_user (uid : Nat)
  | unix_user_name (user_name : String)
  | unix_group_name (group_name : String)
deriving DecidableEq, Repr

/-- The resolved subject context handed to the entry points by the
interactive-authority layer (spec §3). -/
structure SubjectContext where
  user_name : String
  unix_groups : List String
  net_groups : List String
  is_local : Bool
  is_active : Bool
deriving DecidableEq, Repr

/-- `polkit_backend_keyfile_authority_check_authorization_sync`: the
entry point in the sources returns
`POLKIT_IMPLICIT_AUTHORIZATION_NOT_AUTHORIZED` unconditionally,
ignoring the compiled chain, the subject and the implicit default. -/
def polkit_backend_keyfile_authority_check_authorization_sync
    (_authority : AuthorityState) (_ctx : SubjectContext) (_action_id : String)
    (_implicit : PolkitImplicitAuthorization) : PolkitImplicitAuthorization :=
  PolkitImplicitAuthorization.not_authorized

/-- `polkit_backend_keyfile_authority_get_admin_auth_identities`: the
entry point in the sources always returns the single identity
`polkit_unix_user_new (0)`, ignoring the compiled chain and the
subject. -/
def polkit_backend_keyfile_authority_get_admin_auth_identities
    (_authority : AuthorityState) (_ctx : SubjectContext) (_action_id : String) :
    List PolkitIdentity :=
  [PolkitIdentity.unix_user 0]

/-! ## Spec-modelled evaluator

The repository's entry points are stubs; §4.4/§4.5 of the spec give the
intended evaluation semantics.  The following definitions are modelled
from the spec, for comparison against the stubs. -/

/-- Modelled from the spec: §4.4 single-rule matching — the conjunction
over every constraint dimension present in the mask, with the two
action dimensions OR'd with each other, `*` matching every action id. -/
def rule_satisfied (policy : Policy) (ctx : SubjectContext) (action_id : String) :
    Bool :=
  let action_ok :=
    if policy.constraints.actions || policy.constraints.action_contains then
      (policy.constraints.actions
        && policy.actions.any (fun a => a == "*" || a == action_id))
      || (policy.constraints.action_contains
        && policy.action_contains.any (fun sub => strContainsSub action_id sub))
    else true
  let groups_ok := !policy.constraints.unix_groups
      || ctx.unix_groups.any (fun g => policy.unix_groups.contains g)
  let net_ok := !policy.constraints.net_groups
      || ctx.net_groups.any (fun g => policy.net_groups.contains g)
  let names_ok := !policy.constraints.unix_names
      || policy.unix_names.contains ctx.user_name
  let active_ok := !policy.constraints.subject_active
      || ctx.is_active == policy.require_active
  let local_ok := !policy.constraints.subject_local
      || ctx.is_local == policy.require_local
  action_ok && groups_ok && net_ok && names_ok && active_ok && local_ok

/-- Modelled from the spec: §4.4 walk of one `normal` list in
declaration order — a satisfied rule with `Result` set decides, an
unsatisfied rule with `ResultInverse` set decides, anything else falls
through. -/
def spec_eval_rule_list (ctx : SubjectContext) (action_id : String) :
    List Policy → Option PolkitResponse
  | [] => none
  | p :: rest =>
    if rule_satisfied p ctx action_id && p.constraints.result then some p.response
    else if !rule_satisfied p ctx action_id && p.constraints.result_inverse then
      some p.response_inverse
    else spec_eval_rule_list ctx action_id rest

/-- Modelled from the spec: §4.4 walk of the chain in order, first
decision wins. -/
def spec_eval_chain (ctx : SubjectContext) (action_id : String) :
    List PolicyFile → Option PolkitResponse
  | [] => none
  | file :: rest =>
    match spec_eval_rule_list ctx action_id file.normal with
    | some r => some r
    | none => spec_eval_chain ctx action_id rest

/-- Modelled from the spec: the verdict keywords mapped onto the implicit
authorization levels of the entry-point signature (glossary of the spec). -/
def response_to_implicit (r : PolkitResponse)
    (implicit : PolkitImplicitAuthorization) : PolkitImplicitAuthorization :=
  match r with
  | PolkitResponse.unhandled => implicit
  | PolkitResponse.no => PolkitImplicitAuthorization.not_authorized
  | PolkitResponse.yes => PolkitImplicitAuthorization.authorized
  | PolkitResponse.auth_self => PolkitImplicitAuthorization.authentication_required
  | PolkitResponse.auth_self_keep =>
      PolkitImplicitAuthorization.authentication_required_retained
  | PolkitResponse.auth_admin =>
      PolkitImplicitAuthorization.administrator_authentication_required
  | PolkitResponse.auth_admin_keep =>
      PolkitImplicitAuthorization.administrator_authentication_required_retained

/-- Modelled from the spec: §4.4 full check — walk the chain, and when
the walk exhausts every RuleSet without a decision return the
caller-supplied implicit default. -/
def spec_check_authorization (chain : List PolicyFile) (ctx : SubjectContext)
    (action_id : String) (implicit : PolkitImplicitAuthorization) :
    PolkitImplicitAuthorization :=
  match spec_eval_chain ctx action_id chain with
  | some r => response_to_implicit r implicit
  | none => implicit

/-- Modelled from the spec: §4.5 — the identities one satisfied admin
rule contributes (its user names and groups resolved to identities). -/
def spec_rule_admin_identities (policy : Policy) : List PolkitIdentity :=
  policy.unix_names.map PolkitIdentity.unix_user_name
    ++ policy.unix_groups.map PolkitIdentity.unix_group_name

/-- Modelled from the spec: §4.5 additive admin resolution — every
satisfied rule of every `admin` list contributes, in chain then
declaration order. -/
def spec_get_admin_identities (chain : List PolicyFile) (ctx : SubjectContext)
    (action_id : String) : List PolkitIdentity :=
  chain.foldr
    (fun file acc =>
      file.admin.foldr
        (fun p acc2 =>
          (if rule_satisfied p ctx action_id then spec_rule_admin_identities p else [])
            ++ acc2)
        acc)
    []

/-! ## Concrete fixtures used by witnesses and counterexamples -/

/-- A well-formed rule file declaring no sections at all. -/
def kfTrivial : KeyFile :=
  ⟨[("Policy", [("Rules", ""), ("AdminRules", "")])]⟩

/-- What `kfTrivial` compiles to. -/
def pfTrivial : PolicyFile :=
  { normal := [], admin := [] }

/-- A well-formed rule file with one (empty) rule section. -/
def kfOneRule : KeyFile :=
  ⟨[("Policy", [("Rules", "R1"), ("AdminRules", "")]), ("R1", [])]⟩

/-- What `kfOneRule` compiles to. -/
def pfOneRule : PolicyFile :=
  { normal := [zeroPolicy "R1"], admin := [] }

/-- Chain in place before the reload of the C1 scenario. -/
def C1old : List PolicyFile := [pfOneRule]

/-- The two rule files the C1 reload pass loads, in sorted order. -/
def C1files : List String := ["a.keyrules", "b.keyrules"]

/-- Loader for the C1 scenario: both files load successfully. -/
def C1load (f : String) : Option KeyFile :=
  if f == "a.keyrules" then some kfTrivial
  else if f == "b.keyrules" then some kfOneRule
  else none

/-! ## Helper lemmas -/

/-- The parse loop keeps exactly the successfully compiled files, in
order. -/
theorem load_loop_eq_filterMap (loadfile : String → Option KeyFile)
    (files : List String) :
    load_loop loadfile files
      = files.filterMap (fun f => policy_file_new_from_path (loadfile f)) := by
  induction files with
  | nil => rfl
  | cons f rest ih =>
    rw [load_loop, List.filterMap_cons]
    cases h : policy_file_new_from_path (loadfile f) <;> simp [h, ih]

/-- The parse loop, phrased through the list of per-file outcomes. -/
theorem load_loop_eq_filterMap_id (loadfile : String → Option KeyFile)
    (files : List String) :
    load_loop loadfile files
      = (files.map (fun f => policy_file_new_from_path (loadfile f))).filterMap id := by
  rw [load_loop_eq_filterMap, List.filterMap_map]
  rfl

/-- Every chain value reached during the parse loop is a prefix of the
final chain. -/
theorem chain_states_mem (L : List (Option PolicyFile)) :
    ∀ (cur : List PolicyFile), ∀ s ∈ chain_states L cur,
      ∃ t, s ++ t = cur ++ L.filterMap id := by
  induction L with
  | nil =>
    intro cur s hs
    simp [chain_states] at hs
  | cons o rest ih =>
    intro cur s hs
    cases o with
    | none =>
      rw [chain_states, List.mem_cons] at hs
      rcases hs with rfl | hs
      · exact ⟨rest.filterMap id, by simp⟩
      · simpa using ih cur s hs
    | some file =>
      rw [chain_states, List.mem_cons] at hs
      rcases hs with rfl | hs
      · exact ⟨rest.filterMap id, by simp⟩
      · rcases ih (cur ++ [file]) s hs with ⟨t, ht⟩
        exact ⟨t, by rw [ht]; simp⟩

/-- The chain value after the last iteration of the parse loop is the
full chain of successes. -/
theorem chain_states_getLastD (L : List (Option PolicyFile)) :
    ∀ cur, (chain_states L cur).getLastD cur = cur ++ L.filterMap id := by
  induction L with
  | nil => intro cur; simp [chain_states]
  | cons o rest ih =>
    intro cur
    cases o with
    | none =>
      rw [chain_states, List.getLastD_cons, ih cur]
      simp
    | some file =>
      rw [chain_states, List.getLastD_cons, ih (cur ++ [file])]
      simp

/-! ## C1 — reload atomicity -/

/-- C1 (counterexample): the claim that the current-chain pointer only
ever references the fully-old or the fully-new chain is false: in a
reload of two well-formed files over a non-empty old chain, the pointer
passes through the empty chain (right after the old chain is freed) and
through the one-element chain (after the first file compiles), neither
of which is the old or the final chain. -/
theorem C1_reload_not_atomic_counterexample :
    ¬ (∀ s ∈ reload_scripts_states C1old C1files C1load,
        s = C1old ∨ s = load_loop C1load C1files) := by
  intro h
  have := h [] (by decide)
  revert this
  decide

/-- C1 (amended): `reload_scripts` first frees the old chain and nulls
the pointer, then `load_scripts` rebuilds the chain in place on the
live pointer; every intermediate pointer state is the old chain or a
(possibly empty, possibly partial) prefix of the final chain, and the
state after the pass completes is exactly the chain of successfully
compiled files in order. -/
theorem C1_reload_in_place_amended (old : List PolicyFile) (files : List String)
    (loadfile : String → Option KeyFile) :
    (∀ s ∈ reload_scripts_states old files loadfile,
        s = old ∨ ∃ t, s ++ t = load_loop loadfile files) ∧
    (reload_scripts_states old files loadfile).getLastD []
      = load_loop loadfile files := by
  constructor
  · intro s hs
    rw [reload_scripts_states, List.mem_cons, List.mem_cons] at hs
    rcases hs with rfl | rfl | hs
    · exact Or.inl rfl
    · exact Or.inr ⟨load_loop loadfile files, by simp⟩
    · refine Or.inr ?_
      rcases chain_states_mem _ [] s hs with ⟨t, ht⟩
      refine ⟨t, ?_⟩
      rw [ht, load_loop_eq_filterMap_id]
      simp
  · rw [reload_scripts_states, List.getLastD_cons, List.getLastD_cons,
        chain_states_getLastD, load_loop_eq_filterMap_id]
    simp

/-- C1 amended, applied to the concrete two-file reload. -/
theorem C1_reload_in_place_amended_witness :
    [pfTrivial] = C1old ∨ ∃ t, [pfTrivial] ++ t = load_loop C1load C1files :=
  (C1_reload_in_place_amended C1old C1files C1load).1 [pfTrivial] (by decide)

/-! ## C2 — the authorization walk -/

/-- A concrete subject context. -/
def ctx0 : SubjectContext :=
  { user_name := "alice"
    unix_groups := ["wheel"]
    net_groups := []
    is_local := true
    is_active := true }

/-- C2 (code bug): the checked-in entry point is a stub.  On the empty
chain with implicit default `authorized`, the walk specified in §4.4
(modelled by `spec_check_authorization`) returns that implicit default,
but `polkit_backend_keyfile_authority_check_authorization_sync` ignores
both the chain and the implicit default and returns `not_authorized`. -/
theorem C2_check_authorization_stub_divergence :
    polkit_backend_keyfile_authority_check_authorization_sync
        { rules_dirs := [], policy := [] } ctx0 "org.example.x"
        PolkitImplicitAuthorization.authorized
      = PolkitImplicitAuthorization.not_authorized
    ∧ spec_check_authorization [] ctx0 "org.example.x"
        PolkitImplicitAuthorization.authorized
      = PolkitImplicitAuthorization.authorized
    ∧ PolkitImplicitAuthorization.not_authorized
        ≠ PolkitImplicitAuthorization.authorized := by
  decide

/-! ## C3 — additive admin identity resolution -/

/-- Admin rule of the first file: matches subjects named `alice`. -/
def adminRuleA : Policy :=
  { zeroPolicy "AdminA" with
      unix_names := ["alice"]
      constraints := { unix_names := true } }

/-- Admin rule of the second file: matches members of `wheel`. -/
def adminRuleB : Policy :=
  { zeroPolicy "AdminB" with
      unix_groups := ["wheel"]
      constraints := { unix_groups := true } }

/-- First admin rule file of the C3 scenario. -/
def pfAdminA : PolicyFile := { normal := [], admin := [adminRuleA] }

/-- Second admin rule file of the C3 scenario. -/
def pfAdminB : PolicyFile := { normal := [], admin := [adminRuleB] }

/-- C3 (code bug): the checked-in admin resolver is a stub.  With a
chain of two files whose admin rules are both satisfied by `ctx0`, the
additive walk specified in §4.5 (modelled by
`spec_get_admin_identities`) contributes both identities in
chain/declaration order, but
`polkit_backend_keyfile_authority_get_admin_auth_identities` returns
the fixed list `[unix_user 0]`, containing neither. -/
theorem C3_admin_identities_stub_divergence :
    polkit_backend_keyfile_authority_get_admin_auth_identities
        { rules_dirs := [], policy := [pfAdminA, pfAdminB] } ctx0 "org.example.x"
      = [PolkitIdentity.unix_user 0]
    ∧ spec_get_admin_identities [pfAdminA, pfAdminB] ctx0 "org.example.x"
      = [PolkitIdentity.unix_user_name "alice", PolkitIdentity.unix_group_name "wheel"]
    ∧ PolkitIdentity.unix_user_name "alice"
        ∉ polkit_backend_keyfile_authority_get_admin_auth_identities
            { rules_dirs := [], policy := [pfAdminA, pfAdminB] } ctx0 "org.example.x" := by
  decide

/-! ## C4 — unrecognized `Result`/`ResultInverse` keywords -/

/-- Rule file whose `Result` value is not one of the six keywords. -/
def kfBadResult : KeyFile :=
  ⟨[("Policy", [("Rules", "R1"), ("AdminRules", "")]),
    ("R1", [("Result", "bogus")])]⟩

/-- Rule file with a valid `Result` and an unrecognized `ResultInverse`. -/
def kfBadInverse : KeyFile :=
  ⟨[("Policy", [("Rules", "R1"), ("AdminRules", "")]),
    ("R1", [("Result", "yes"), ("ResultInverse", "bogus")])]⟩

/-- What `kfBadInverse` compiles to: the file parses, and the rule
retains `response_inverse = unhandled` with the `ResultInverse`
constraint bit set. -/
def pfBadInverse : PolicyFile :=
  { normal := [{ zeroPolicy "R1" with
                   response := PolkitResponse.yes
                   response_inverse := PolkitResponse.unhandled
                   constraints := { result := true, result_inverse := true } }]
    admin := [] }

/-- Rule file with only a valid `ResultInverse` and no `Result`. -/
def kfOnlyInverse : KeyFile :=
  ⟨[("Policy", [("Rules", "R1"), ("AdminRules", "")]),
    ("R1", [("ResultInverse", "no")])]⟩

/-- C4 (code bug): the `ResultInverse` validity check in `policy_load`
tests `policy->response` instead of `policy->response_inverse`.
Consequences, evaluated on the embedding: an unrecognized keyword is
correctly fatal for `Result` (first conjunct), but an unrecognized
`ResultInverse` next to a valid `Result` is silently accepted (second
and third conjuncts), while a file with a valid `ResultInverse` and no
`Result` is wrongly rejected (fourth conjunct). -/
theorem C4_result_inverse_validation_divergence :
    policy_file_new_from_path (some kfBadResult) = none
    ∧ policy_string_to_result "bogus" = PolkitResponse.unhandled
    ∧ policy_file_new_from_path (some kfBadInverse) = some pfBadInverse
    ∧ policy_file_new_from_path (some kfOnlyInverse) = none := by
  decide

/-! ## C5 — fail-soft loading -/

/-- A keyfile with no `[Policy]` group: `policy_file_new_from_path`
fails on it. -/
def kfBad : KeyFile := ⟨[]⟩

/-- Listing for the C5 scenario: one directory holding one well-formed
and one malformed rule file. -/
def fsMix (d : String) : Option (List String) :=
  if d == "d" then some ["good.keyrules", "bad.keyrules"] else none

/-- Loader for the C5 scenario. -/
def loadMix (f : String) : Option KeyFile :=
  if f == "d/good.keyrules" then some kfTrivial
  else if f == "d/bad.keyrules" then some kfBad
  else none

/-- C5: loading is fail-soft per file.  The chain `load_scripts`
produces is exactly the RuleSets of the files that compiled
successfully, in sorted order (failing files are skipped and contribute
nothing), every chain element comes from a successfully compiled file,
and in the concrete one-good-one-bad directory the chain holds only the
well-formed file's RuleSet. -/
theorem C5_fail_soft_load (rules_dirs : List String)
    (fs : String → Option (List String)) (loadfile : String → Option KeyFile) :
    (load_scripts rules_dirs fs loadfile
      = (sorted_rule_files rules_dirs fs).filterMap
          (fun f => policy_file_new_from_path (loadfile f)))
    ∧ (∀ file ∈ load_scripts rules_dirs fs loadfile,
        ∃ f ∈ sorted_rule_files rules_dirs fs,
          policy_file_new_from_path (loadfile f) = some file)
    ∧ load_scripts ["d"] fsMix loadMix = [pfTrivial] := by
  refine ⟨load_loop_eq_filterMap loadfile (sorted_rule_files rules_dirs fs), ?_, by decide⟩
  intro file hfile
  rw [load_scripts, load_loop_eq_filterMap, List.mem_filterMap] at hfile
  rcases hfile with ⟨f, hf, hparse⟩
  exact ⟨f, hf, hparse⟩

/-- C5 applied to the concrete one-good-one-bad directory. -/
theorem C5_fail_soft_load_witness :
    (load_scripts ["d"] fsMix loadMix
      = (sorted_rule_files ["d"] fsMix).filterMap
          (fun f => policy_file_new_from_path (loadMix f)))
    ∧ (∀ file ∈ load_scripts ["d"] fsMix loadMix,
        ∃ f ∈ sorted_rule_files ["d"] fsMix,
          policy_file_new_from_path (loadMix f) = some file)
    ∧ load_scripts ["d"] fsMix loadMix = [pfTrivial] :=
  C5_fail_soft_load ["d"] fsMix loadMix

/-! ## C6 — referential integrity of `Rules`/`AdminRules` -/

/-- A section whose group is absent fails `policy_load`. -/
theorem policy_load_missing_group (kf : KeyFile) (s : String)
    (h : kf.hasGroup s = false) : policy_load kf s = none := by
  simp [policy_load, h]

/-- A section list naming a missing section fails
`load_rules_list` as a whole. -/
theorem load_rules_list_missing (kf : KeyFile) (secs : List String) (s : String)
    (hmem : s ∈ secs.map g_strstrip) (hmiss : kf.hasGroup s = false) :
    load_rules_list kf secs = none := by
  induction secs with
  | nil => simp at hmem
  | cons x rest ih =>
    rw [List.map_cons, List.mem_cons] at hmem
    rw [load_rules_list]
    rcases hmem with rfl | hmem
    · rw [policy_load_missing_group kf _ hmiss]
    · cases h : policy_load kf (g_strstrip x) with
      | none => rfl
      | some p => rw [ih hmem]

/-- C6: a rule file whose `[Policy]` section names, in `Rules` or
`AdminRules`, a section with no corresponding group in the file fails
to parse entirely — `policy_file_new_from_path` returns `none` and no
partially built rule list is retained. -/
theorem C6_missing_section_fails (kf : KeyFile) (key s : String)
    (secs : List String)
    (hkey : key = "Rules" ∨ key = "AdminRules")
    (hsecs : g_key_file_get_string_list kf "Policy" key = some secs)
    (hmem : s ∈ secs.map g_strstrip)
    (hmiss : kf.hasGroup s = false) :
    policy_file_new_from_path (some kf) = none := by
  have hload : policy_file_load_rules kf key = none := by
    rw [policy_file_load_rules, hsecs]
    exact load_rules_list_missing kf secs s hmem hmiss
  rcases hkey with rfl | rfl
  · rw [policy_file_new_from_path, hload]
  · rw [policy_file_new_from_path]
    cases hR : policy_file_load_rules kf "Rules" with
    | none => rfl
    | some normal => rw [hload]

/-- The rule file of the C6 witness: `Rules` names a section the file
does not contain. -/
def kfDangling : KeyFile :=
  ⟨[("Policy", [("Rules", "Missing"), ("AdminRules", "")])]⟩

/-- C6 applied to a concrete file with a dangling section reference. -/
theorem C6_missing_section_fails_witness :
    policy_file_new_from_path (some kfDangling) = none :=
  C6_missing_section_fails kfDangling "Rules" "Missing" ["Missing"]
    (Or.inl rfl) (by decide) (by decide) (by decide)

/-! ## C7 — base-filename ordering and the tie-break -/

/-- Listing for the C7 counterexample: two directories each holding a
file named `same.keyrules`. -/
def C7fs (d : String) : Option (List String) :=
  if d == "dirB" || d == "dirA" then some ["same.keyrules"] else none

/-- Loader for the C7 counterexample: both same-named files are
well-formed but compile to distinct RuleSets. -/
def C7load (f : String) : Option KeyFile :=
  if f == "dirA/same.keyrules" then some kfTrivial
  else if f == "dirB/same.keyrules" then some kfOneRule
  else none

/-- C7 (counterexample): with `dirB` listed before `dirA` in the
configured order, the comparator still puts `dirA/same.keyrules` first
(the tie on the base filename is broken by plain full-path comparison),
so the earlier-listed directory's RuleSet does not precede — the claim
that the configured order decides the tie is false. -/
theorem C7_earlier_directory_wins_counterexample :
    sorted_rule_files ["dirB", "dirA"] C7fs
      = ["dirA/same.keyrules", "dirB/same.keyrules"]
    ∧ load_scripts ["dirB", "dirA"] C7fs C7load = [pfTrivial, pfOneRule]
    ∧ policy_file_new_from_path (C7load "dirA/same.keyrules") = some pfTrivial
    ∧ policy_file_new_from_path (C7load "dirB/same.keyrules") = some pfOneRule
    ∧ pfTrivial ≠ pfOneRule := by
  decide

/-- Listing for the default `/etc`-before-`/usr` configuration. -/
def etcUsrFs (d : String) : Option (List String) :=
  if d == "/etc/polkit-1/rules.d" || d == "/usr/share/polkit-1/rules.d" then
    some ["same.keyrules"]
  else none

/-- `/etc` rule file: unconditional `Result=no`. -/
def kfEtcSame : KeyFile :=
  ⟨[("Policy", [("Rules", "R1"), ("AdminRules", "")]), ("R1", [("Result", "no")])]⟩

/-- `/usr` rule file: unconditional `Result=yes`. -/
def kfUsrSame : KeyFile :=
  ⟨[("Policy", [("Rules", "R1"), ("AdminRules", "")]), ("R1", [("Result", "yes")])]⟩

/-- Loader for the default-configuration scenario. -/
def etcUsrLoad (f : String) : Option KeyFile :=
  if f == "/etc/polkit-1/rules.d/same.keyrules" then some kfEtcSame
  else if f == "/usr/share/polkit-1/rules.d/same.keyrules" then some kfUsrSame
  else none

/-- What `kfEtcSame` compiles to. -/
def pfEtcSame : PolicyFile :=
  { normal := [{ zeroPolicy "R1" with
                   response := PolkitResponse.no
                   constraints := { result := true } }]
    admin := [] }

/-- What `kfUsrSame` compiles to. -/
def pfUsrSame : PolicyFile :=
  { normal := [{ zeroPolicy "R1" with
                   response := PolkitResponse.yes
                   constraints := { result := true } }]
    admin := [] }

/-- C7 (amended): the comparator orders by base filename first and, for
equal base filenames, by lexicographic full-path comparison — so the
lexicographically smaller path wins the tie, which matches the
configured directory order only when that order is itself
lexicographic, as the default `/etc`-before-`/usr` configuration is:
there the `/etc` RuleSet precedes the same-named `/usr` RuleSet in the
chain and its verdict wins. -/
theorem C7_base_name_then_path_amended (a b : String) :
    (afterLastSlash a = afterLastSlash b →
      rules_file_name_le a b = strLe a b)
    ∧ (afterLastSlash a ≠ afterLastSlash b →
      rules_file_name_le a b = strLt (afterLastSlash a) (afterLastSlash b))
    ∧ load_scripts ["/etc/polkit-1/rules.d", "/usr/share/polkit-1/rules.d"]
        etcUsrFs etcUsrLoad = [pfEtcSame, pfUsrSame]
    ∧ spec_check_authorization
        (load_scripts ["/etc/polkit-1/rules.d", "/usr/share/polkit-1/rules.d"]
          etcUsrFs etcUsrLoad)
        ctx0 "org.example.x" PolkitImplicitAuthorization.authorized
      = PolkitImplicitAuthorization.not_authorized := by
  refine ⟨?_, ?_, by decide, by decide⟩
  · intro h
    rw [rules_file_name_le, if_pos (by simp [h])]
  · intro h
    rw [rules_file_name_le, if_neg (by simp [h])]

/-- C7 amended, applied to the default same-named `/etc` and `/usr`
files: the same-basename tie is broken by full-path comparison. -/
theorem C7_base_name_then_path_amended_witness :
    rules_file_name_le "/etc/polkit-1/rules.d/same.keyrules"
      "/usr/share/polkit-1/rules.d/same.keyrules"
      = strLe "/etc/polkit-1/rules.d/same.keyrules"
          "/usr/share/polkit-1/rules.d/same.keyrules" :=
  (C7_base_name_then_path_amended "/etc/polkit-1/rules.d/same.keyrules"
      "/usr/share/polkit-1/rules.d/same.keyrules").1 (by decide)

/-! ## C8 — the directory-monitor filter -/

/-- The source's event filter, as a proposition on the claim's terms. -/
theorem monitor_condition_iff (name : String) (event_type : GFileMonitorEvent) :
    (!strStartsWith name "." && !strStartsWith name "#"
      && g_str_has_suffix name ".keyrules"
      && (event_type == GFileMonitorEvent.created
          || event_type == GFileMonitorEvent.deleted
          || event_type == GFileMonitorEvent.changes_done_hint)) = true
    ↔ (strStartsWith name "." = false ∧ strStartsWith name "#" = false
        ∧ g_str_has_suffix name ".keyrules" = true
        ∧ (event_type = GFileMonitorEvent.created
           ∨ event_type = GFileMonitorEvent.deleted
           ∨ event_type = GFileMonitorEvent.changes_done_hint)) := by
  simp [Bool.and_eq_true, Bool.or_eq_true, Bool.not_eq_true', and_assoc, or_assoc]

/-- C8: a monitor event triggers a full reload followed by the
`changed` notification exactly when it carries a file whose basename
does not start with `.` or `#` and ends with `.keyrules`, and the event
is a create, delete, or changes-done-hint; every other event leaves the
authority state untouched and emits nothing, while a triggering event
replaces the chain with a fresh `load_scripts` pass. -/
theorem C8_monitor_trigger_iff (st : AuthorityState)
    (fs : String → Option (List String)) (loadfile : String → Option KeyFile)
    (file : Option String) (event_type : GFileMonitorEvent) :
    ((on_dir_monitor_changed st fs loadfile file event_type).2 = true
      ↔ ∃ name, file = some name
          ∧ strStartsWith name "." = false
          ∧ strStartsWith name "#" = false
          ∧ g_str_has_suffix name ".keyrules" = true
          ∧ (event_type = GFileMonitorEvent.created
             ∨ event_type = GFileMonitorEvent.deleted
             ∨ event_type = GFileMonitorEvent.changes_done_hint))
    ∧ on_dir_monitor_changed st fs loadfile file event_type
        = (if (on_dir_monitor_changed st fs loadfile file event_type).2
           then ({ st with policy := load_scripts st.rules_dirs fs loadfile }, true)
           else (st, false)) := by
  cases file with
  | none =>
    refine ⟨?_, rfl⟩
    simp [on_dir_monitor_changed]
  | some name =>
    rw [on_dir_monitor_changed]
    by_cases hc : (!strStartsWith name "." && !strStartsWith name "#"
        && g_str_has_suffix name ".keyrules"
        && (event_type == GFileMonitorEvent.created
            || event_type == GFileMonitorEvent.deleted
            || event_type == GFileMonitorEvent.changes_done_hint)) = true
    · rw [if_pos hc]
      refine ⟨?_, by simp [reload_scripts]⟩
      constructor
      · intro _
        exact ⟨name, rfl, (monitor_condition_iff name event_type).mp hc⟩
      · intro _
        simp [reload_scripts]
    · rw [if_neg hc]
      refine ⟨?_, by simp⟩
      constructor
      · intro h
        simp at h
      · rintro ⟨name2, hname2, hconds⟩
        injection hname2 with hname2
        subst hname2
        exact absurd ((monitor_condition_iff name event_type).mpr hconds) hc

/-- C8 applied to a concrete create event on a rule file. -/
theorem C8_monitor_trigger_iff_witness :
    (on_dir_monitor_changed { rules_dirs := [], policy := [] }
        (fun _ => none) (fun _ => none) (some "50-default.keyrules")
        GFileMonitorEvent.created).2 = true :=
  (C8_monitor_trigger_iff { rules_dirs := [], policy := [] }
      (fun _ => none) (fun _ => none) (some "50-default.keyrules")
      GFileMonitorEvent.created).1.mpr
    ⟨"50-default.keyrules", rfl, by decide, by decide, by decide, Or.inl rfl⟩

/-! ## C9 — parsing determinism -/

/-- C9: parsing is a pure function of the loaded file content — two
parses of the same content produce structurally equal results
(`PolicyFile` carries decidable structural equality over ids,
constraint masks, string sets, booleans and result fields). -/
theorem C9_parse_deterministic (loaded : Option KeyFile)
    (r1 r2 : Option PolicyFile)
    (h1 : policy_file_new_from_path loaded = r1)
    (h2 : policy_file_new_from_path loaded = r2) : r1 = r2 := by
  rw [← h1, ← h2]

/-- C9 applied to a concrete well-formed rule file parsed twice. -/
theorem C9_parse_deterministic_witness :
    some pfOneRule = some pfOneRule :=
  C9_parse_deterministic (some kfOneRule) (some pfOneRule) (some pfOneRule)
    (by decide) (by decide)

/-! ## C10 — `Rules` and `AdminRules` are both mandatory -/

/-- A missing group makes every raw lookup in it fail. -/
theorem getRaw_none_of_hasGroup_false (kf : KeyFile) (group_name key : String)
    (h : kf.hasGroup group_name = false) : kf.getRaw group_name key = none := by
  rw [KeyFile.getRaw]
  have hfind : kf.groups.find? (fun g => g.1 == group_name) = none := by
    rw [List.find?_eq_none]
    intro x hx
    rw [KeyFile.hasGroup, List.any_eq_false] at h
    exact h x hx
  rw [hfind]

/-- A missing group or key makes `policy_file_load_rules` fail for that
list. -/
theorem policy_file_load_rules_none (kf : KeyFile) (sec : String)
    (h : kf.getRaw "Policy" sec = none) :
    policy_file_load_rules kf sec = none := by
  rw [policy_file_load_rules, g_key_file_get_string_list, h]
  rfl

/-- C10: both `Rules` and `AdminRules` are mandatory — a keyfile whose
`[Policy]` group is missing, or present without a `Rules` key, or
present without an `AdminRules` key, fails to parse entirely. -/
theorem C10_both_keys_mandatory (kf : KeyFile)
    (h : kf.hasGroup "Policy" = false
       ∨ kf.getRaw "Policy" "Rules" = none
       ∨ kf.getRaw "Policy" "AdminRules" = none) :
    policy_file_new_from_path (some kf) = none := by
  have hcase : kf.getRaw "Policy" "Rules" = none
      ∨ kf.getRaw "Policy" "AdminRules" = none := by
    rcases h with h | h | h
    · exact Or.inl (getRaw_none_of_hasGroup_false kf "Policy" "Rules" h)
    · exact Or.inl h
    · exact Or.inr h
  rcases hcase with h | h
  · rw [policy_file_new_from_path, policy_file_load_rules_none kf "Rules" h]
  · rw [policy_file_new_from_path]
    cases hR : policy_file_load_rules kf "Rules" with
    | none => rfl
    | some normal => rw [policy_file_load_rules_none kf "AdminRules" h]

/-- The keyfile of the C10 witness: a `[Policy]` group declaring only
`Rules`, with no `AdminRules` key. -/
def kfRulesOnly : KeyFile :=
  ⟨[("Policy", [("Rules", "")])]⟩

/-- C10 applied to a concrete file lacking the `AdminRules` key. -/
theorem C10_both_keys_mandatory_witness :
    policy_file_new_from_path (some kfRulesOnly) = none :=
  C10_both_keys_mandatory kfRulesOnly (Or.inr (Or.inr (by decide)))
